import Mathlib

/-!
Shallow embedding of the porygion region-map generator (package `porygion`,
files `porygion.go`, `render.go` and the Tile source file).

Modelling conventions:
* Go `int` is `Int`; Go integer division and remainder are `Int.tdiv` / `Int.tmod`
  (truncation toward zero, as in Go).  Pixel dimensions are `Nat` (the callers'
  well-formed inputs are non-negative) and `Nat` division `/` matches Go for them.
* `float64` elevations and noise values are embedded as `ℚ`; the code only ever
  adds, multiplies and compares them against `0`.
* The global `math/rand` source (re-seeded by `rand.Seed(seed)` at each entry
  point) is an abstract stream `RandSrc`: `stream : Nat → Nat` is the sequence of
  outputs of the opaque PRNG and `pos` the next unread position.  `rand.Intn n`
  reads one value reduced `% n`, `rand.Int63` reads one value.  `seedStream`
  abstracts how `rand.Seed` determines that sequence from the seed.
* The opensimplex noise constructor is an opaque parameter
  `simplexNew : Int → ℚ → ℚ → ℚ` (seed ↦ 2-argument noise function), and the
  external k-means library is an opaque parameter `km : KMeans`.
* Go runtime panics (index out of range, integer divide by zero, nil
  dereference, non-terminating loops) are modelled by `Option`: `none` means the
  function does not return normally.  A returned `error` value is `Except.error`.
-/

set_option maxRecDepth 40000

namespace Porygion

/-- A Tile is an 8x8-pixel section in a region map (Tile source file). -/
structure Tile where
  X : Int
  Y : Int
deriving DecidableEq

/-- Manhattan distance between two Tiles (`Tile.Distance` in the Tile source
file): absolute x-difference plus absolute y-difference, with the absolute
values taken by explicit sign tests as in the source. -/
def Tile.Distance (t other : Tile) : Int :=
  (if t.X - other.X < 0 then -(t.X - other.X) else t.X - other.X) +
    (if t.Y - other.Y < 0 then -(t.Y - other.Y) else t.Y - other.Y)

/-- Abstract model of the process-global `math/rand` source after seeding:
`stream` is the infinite sequence of raw PRNG outputs, `pos` the next position
to read. -/
structure RandSrc where
  stream : Nat → Nat
  pos : Nat

/-- Model of `rand.Intn n` for `n > 0`: consume one stream value, reduced
modulo `n`.  Callers that could reach `rand.Intn 0` (a Go panic) guard for it
explicitly and return `none` there. -/
def randIntn (r : RandSrc) (n : Nat) : Nat × RandSrc :=
  (r.stream r.pos % n, ⟨r.stream, r.pos + 1⟩)

/-- Model of `rand.Int63`: consume one stream value. -/
def randInt63 (r : RandSrc) : Int × RandSrc :=
  ((r.stream r.pos : Int), ⟨r.stream, r.pos + 1⟩)

/-- Model of `rand.Seed seed`: the global source restarts at position 0 of the
seed-determined stream. -/
def randSeed (seedStream : Int → Nat → Nat) (seed : Int) : RandSrc :=
  ⟨seedStream seed, 0⟩

/-- The opaque k-means primitive (`kmeans.New().Partition(points, 2)`):
given observation coordinates, either an error or a list of clusters of
coordinates. -/
abbrev KMeans := List (ℚ × ℚ) → Except String (List (List (ℚ × ℚ)))

/-- A region map (`RegionMap` in porygion.go). -/
structure RegionMap where
  PixelWidth : Nat
  PixelHeight : Nat
  Elevations : List (List ℚ)
  Cities : List Tile
  Routes : List Tile

/-- Lookup of pixel `(x, y)` in an elevation grid; `none` models a Go
index-out-of-range panic. -/
def elevAt (e : List (List ℚ)) (x y : Nat) : Option ℚ :=
  e[x]?.bind fun row => row[y]?

/-- `getNewElevationMap`: a `width × height` grid of zero elevations. -/
def getNewElevationMap (width height : Nat) : List (List ℚ) :=
  List.replicate width (List.replicate height 0)

/-- `generateElevations`: draw four `rand.Int63` seeds, build the four noise
generators, and overwrite every cell `(i, j)` of the grid with
`base + secondary + jitter * jitterCoeff` exactly as in porygion.go. -/
def generateElevations (simplexNew : Int → ℚ → ℚ → ℚ) (elevations : List (List ℚ))
    (r : RandSrc) : List (List ℚ) × RandSrc :=
  let p1 := randInt63 r
  let p2 := randInt63 p1.2
  let p3 := randInt63 p2.2
  let p4 := randInt63 p3.2
  let baseNoise := simplexNew p1.1
  let secondaryNoise := simplexNew p2.1
  let jitterNoise := simplexNew p3.1
  let jitterCoeffNoise := simplexNew p4.1
  (elevations.mapIdx fun i row =>
    row.mapIdx fun j _ =>
      let baseElevation := baseNoise ((i : ℚ) / 100) ((j : ℚ) / 100) + 0.2
      let secondaryElevation := secondaryNoise ((i : ℚ) / 20) ((j : ℚ) / 20) * 0.15
      let jitterElevation := jitterNoise ((i : ℚ) / 15) ((j : ℚ) / 15)
      let jitterCoeff := jitterCoeffNoise ((i : ℚ) / 50) ((j : ℚ) / 50) * 0.6
      baseElevation + secondaryElevation + jitterElevation * jitterCoeff,
   p4.2)

/-- The order in which `getValidLandmarkTiles` visits the 64 pixels of a tile:
outer loop `x`, inner loop `y`. -/
def tilePixelOrder : List (Nat × Nat) :=
  (List.range 8).flatMap fun x => (List.range 8).map fun y => (x, y)

/-- The pixel scan of one tile in `getValidLandmarkTiles`: walk the pixels in
order, counting elevations `≥ 0`, and stop (both loops break) as soon as the
count exceeds 20.  `none` models an out-of-range pixel access. -/
def scanPixels (e : List (List ℚ)) (i j : Nat) : List (Nat × Nat) → Nat → Option Bool
  | [], _ => some false
  | p :: rest, numLandPixels =>
    match elevAt e (i * 8 + p.1) (j * 8 + p.2) with
    | none => none
    | some v =>
      if 0 ≤ v then
        if 20 < numLandPixels + 1 then some true
        else scanPixels e i j rest (numLandPixels + 1)
      else scanPixels e i j rest numLandPixels

/-- `getValidLandmarkTiles`: `len(elevations) / 8 × len(elevations[0]) / 8`
tiles, scanned row-major (`i` outer, `j` inner); a tile is appended when its
scan finds more than 20 land pixels.  Reading `elevations[0]` of an empty grid
or any out-of-range pixel access yields `none` (Go panic). -/
def getValidLandmarkTiles (elevations : List (List ℚ)) : Option (List Tile) :=
  match elevations[0]? with
  | none => none
  | some row0 =>
    let tilesWidth := elevations.length / 8
    let tilesHeight := row0.length / 8
    (List.range tilesWidth).foldl
      (fun acc i =>
        (List.range tilesHeight).foldl
          (fun acc2 j =>
            acc2.bind fun ts =>
              (scanPixels elevations i j tilePixelOrder 0).map fun found =>
                if found then ts ++ [⟨(i : Int), (j : Int)⟩] else ts)
          acc)
      (some [])

/-- Whether pixel `p` of tile `(i, j)` is a land pixel (elevation `≥ 0`);
out-of-range pixels count as water. -/
def pixLand (e : List (List ℚ)) (i j : Nat) (p : Nat × Nat) : Bool :=
  match elevAt e (i * 8 + p.1) (j * 8 + p.2) with
  | some v => decide (0 ≤ v)
  | none => false

/-- The number of land pixels (elevation `≥ 0`) among the 64 pixels of tile
`(i, j)`.  This is the order-free count the early-exit scan is compared
against. -/
def tileLandCount (e : List (List ℚ)) (i j : Nat) : Nat :=
  (tilePixelOrder.filter (pixLand e i j)).length

/-- The `fmt.Sprintf("%d:%d", x, y)` partition key. -/
def keyStr (x y : Int) : String := toString x ++ ":" ++ toString y

/-- Insertion into the partition map: append to the bucket of `key` if it
exists (Go `append(partitions[key], t)` on an existing key), otherwise create
the bucket (`partitions[key] = []Tile{}` then append).  The map is modelled as
an association list in key-creation order. -/
def addToPartition : List (String × List Tile) → String → Tile →
    List (String × List Tile)
  | [], key, t => [(key, [t])]
  | p :: rest, key, t =>
    if p.1 == key then (p.1, p.2 ++ [t]) :: rest else p :: addToPartition rest key t

/-- Bucket lookup in the modelled partition map; a missing key yields the Go
zero value `[]`. -/
def assocLookup : List (String × List Tile) → String → List Tile
  | [], _ => []
  | p :: rest, key => if p.1 == key then p.2 else assocLookup rest key

/-- `partitionTilesByLocation`: group each tile under the key
`(t.X / partitionWidth, t.Y / partitionHeight)` (Go truncated division on the
tile coordinates themselves).  The `tileWidth`/`tileHeight` parameters are
accepted but, as in the source, never used.  The callers always pass
`partitionWidth = partitionHeight = 100`, so Go's division-by-zero panic is
unreachable there and the embedding uses total `Int.tdiv`. -/
def partitionTilesByLocation (partitionWidth partitionHeight : Int)
    (tileWidth tileHeight : Int) (tiles : List Tile) : List (String × List Tile) :=
  tiles.foldl
    (fun partitions t =>
      addToPartition partitions
        (keyStr (Int.tdiv t.X partitionWidth) (Int.tdiv t.Y partitionHeight)) t)
    []

/-- Swap of two list positions, the `swap` callback Go's `rand.Shuffle` uses on
the partition-key slice. -/
def listSwap (l : List String) (i j : Nat) : List String :=
  let vi := l.getD i ""
  let vj := l.getD j ""
  (l.set i vj).set j vi

/-- The Fisher-Yates loop of `rand.Shuffle`: for `i` from `n-1` down to `1`,
draw `j := Intn (i+1)` and swap positions `i` and `j`.  The countdown argument
is the current `i`. -/
def randShuffleGo : List String → RandSrc → Nat → List String × RandSrc
  | l, r, 0 => (l, r)
  | l, r, i + 1 =>
    let p := randIntn r (i + 2)
    randShuffleGo (listSwap l (i + 1) p.1) p.2 i

/-- Model of `rand.Shuffle(len(keys), swap)` on the key list. -/
def randShuffle (l : List String) (r : RandSrc) : List String × RandSrc :=
  randShuffleGo l r (l.length - 1)

/-- The inner `for j := 0; j < 50; j++` loop of `tryPickCityTile`: draw a
random element of the partition and accept it unless one of the parity, bound
or exclusion-box checks rejects it. -/
def tryPickAux (partition : List Tile) (r : RandSrc) : Nat → Option Tile × RandSrc
  | 0 => (none, r)
  | j + 1 =>
    let p := randIntn r partition.length
    let candidate := partition.getD p.1 ⟨0, 0⟩
    if Int.tmod candidate.X 2 ≠ 1 ∨ Int.tmod candidate.Y 2 ≠ 1 then
      tryPickAux partition p.2 j
    else if candidate.X < 1 ∨ candidate.Y < 2 ∨ 28 < candidate.X ∨ 16 < candidate.Y then
      tryPickAux partition p.2 j
    else if 14 < candidate.X ∧ 14 < candidate.Y then
      tryPickAux partition p.2 j
    else if 19 < candidate.X ∧ candidate.Y < 5 then
      tryPickAux partition p.2 j
    else (some candidate, p.2)

/-- `tryPickCityTile`: 50 attempts to draw a valid tile from the partition.
On an empty partition `rand.Intn 0` panics in Go, modelled as `none`. -/
def tryPickCityTile (partition : List Tile) (r : RandSrc) :
    Option (Option Tile × RandSrc) :=
  if partition.isEmpty then none
  else some (tryPickAux partition r 50)

/-- The `for i := 0; i < 50; i++` placement loop of `generateCities` for one
settlement slot: on a successful pick that is not already a chosen city,
record it and stop; otherwise keep trying. -/
def placeAttempts (partition : List Tile) (cities : List Tile) (r : RandSrc) :
    Nat → Option (List Tile × RandSrc)
  | 0 => some (cities, r)
  | i + 1 =>
    match tryPickCityTile partition r with
    | none => none
    | some (opt, r2) =>
      match opt with
      | some city =>
        if cities.contains city then placeAttempts partition cities r2 i
        else some (cities ++ [city], r2)
      | none => placeAttempts partition cities r2 i

/-- The outer `for c := 0; c < numCities; c++` loop of `generateCities`.
`remaining` counts the slots still to place and `c` is the Go loop index.  With
an empty key list, Go's `c % len(partitionKeys)` divides by zero: `none`. -/
def generateCitiesLoop (partitions : List (String × List Tile)) (keys : List String) :
    Nat → Nat → List Tile → RandSrc → Option (List Tile × RandSrc)
  | 0, _, cities, r => some (cities, r)
  | remaining + 1, c, cities, r =>
    if keys.length = 0 then none
    else
      let partition := assocLookup partitions (keys.getD (c % keys.length) "")
      match placeAttempts partition cities r 50 with
      | none => none
      | some (cities2, r2) => generateCitiesLoop partitions keys remaining (c + 1) cities2 r2

/-- `generateCities`: shuffle the partition keys, then round-robin through them
placing one settlement per slot.  The city set is modelled as a duplicate-free
list in insertion order. -/
def generateCities (partitions : List (String × List Tile)) (numCities : Nat)
    (r : RandSrc) : Option (List Tile × RandSrc) :=
  let keys := partitions.map fun p => p.1
  let s := randShuffle keys r
  generateCitiesLoop partitions s.1 numCities 0 [] s.2

/-- Go `int(f)` conversion of an observation coordinate back to a tile
coordinate (truncation toward zero; exact on the integral coordinates the
pipeline produces). -/
def ratToInt (q : ℚ) : Int := Int.tdiv q.num (q.den : Int)

/-- `clusterCities`: map the cities to coordinate observations, call the opaque
k-means primitive with k = 2, wrap its error, and convert the resulting
clusters back to tiles. -/
def clusterCities (km : KMeans) (cities : List Tile) : Except String (List (List Tile)) :=
  let points := cities.map fun city => ((city.X : ℚ), (city.Y : ℚ))
  match km points with
  | Except.error e => Except.error ("Failed to cluster cities: " ++ e)
  | Except.ok cls =>
    Except.ok (cls.map fun cluster => cluster.map fun o => ⟨ratToInt o.1, ratToInt o.2⟩)

/-- Insertion into the `routeTiles` set (`routeTiles[t] = true` on a Go map),
modelled as a duplicate-free list in first-insertion order. -/
def insertTile (s : List Tile) (t : Tile) : List Tile :=
  if s.contains t then s else s ++ [t]

/-- `connectHorizontalRoute`: lay a route tile at every x from `start.X` up to
but excluding `stop.X` along `start.Y`, and return the elbow tile
`(stop.X, start.Y)`. -/
def connectHorizontalRoute (start stop : Tile) (routeTiles : List Tile) :
    Tile × List Tile :=
  let inc : Int := if start.X > stop.X then -1 else 1
  let n := (stop.X - start.X).natAbs
  (⟨stop.X, start.Y⟩,
   (List.range n).foldl (fun s (k : Nat) => insertTile s ⟨start.X + inc * (k : Int), start.Y⟩)
     routeTiles)

/-- `connectVerticalRoute`: lay a route tile at every y from `start.Y` up to
but excluding `stop.Y` along `start.X`, and return the elbow tile
`(start.X, stop.Y)`. -/
def connectVerticalRoute (start stop : Tile) (routeTiles : List Tile) :
    Tile × List Tile :=
  let inc : Int := if start.Y > stop.Y then -1 else 1
  let n := (stop.Y - start.Y).natAbs
  (⟨start.X, stop.Y⟩,
   (List.range n).foldl (fun s (k : Nat) => insertTile s ⟨start.X, start.Y + inc * (k : Int)⟩)
     routeTiles)

/-- `connectCities`: flip a coin; horizontal leg then vertical leg from the
elbow, or the other way round. -/
def connectCities (cityA cityB : Tile) (routeTiles : List Tile) (r : RandSrc) :
    List Tile × RandSrc :=
  let p := randIntn r 2
  if p.1 = 0 then
    let h := connectHorizontalRoute cityA cityB routeTiles
    ((connectVerticalRoute h.1 cityB h.2).2, p.2)
  else
    let v := connectVerticalRoute cityA cityB routeTiles
    ((connectHorizontalRoute v.1 cityB v.2).2, p.2)

/-- The nearest-unconnected-city search of `generateRoutes`: fold over the
cluster with `minDistance := 99999`, skipping the current city itself and
already-connected cities, keeping the strictly closest. -/
def nearestLoop (city : Tile) (cities : List Tile) (connected : List Tile) :
    Option Tile × Int :=
  cities.foldl
    (fun acc other =>
      if other = city then acc
      else if connected.contains other then acc
      else if city.Distance other < acc.2 then (some other, city.Distance other)
      else acc)
    (none, 99999)

/-- The `for len(connectedCities) < len(cities)` chaining loop of
`generateRoutes` for one cluster.  State: `connected` (the connected set),
`cur = some (city, firstCity)` once the two pointers are set, `last` is
`lastCity`, `trace` records the arguments of every `connectCities` call made so
far (ghost instrumentation; the tiles themselves accumulate in `routeTiles`).
`fuel` bounds the loop: `none` at fuel 0 models the non-terminating defensive
`continue` branch, and `none` also models the nil-pointer dereferences Go would
hit when no unconnected city exists to start from.  On normal exit it returns
`(trace, firstCity, lastCity, city, routeTiles, rand)`. -/
def chainLoop (cities : List Tile) :
    Nat → List Tile → Option (Tile × Tile) → Tile → List (Tile × Tile) →
      List Tile → RandSrc →
      Option (List (Tile × Tile) × Tile × Tile × Tile × List Tile × RandSrc)
  | 0, _, _, _, _, _, _ => none
  | fuel + 1, connected, cur, last, trace, routeTiles, r =>
    if connected.length < cities.length then
      let cf : Option (Tile × Tile) :=
        match cur with
        | some p => some p
        | none => (cities.find? fun c => !connected.contains c).map fun c => (c, c)
      match cf with
      | none => none
      | some (c, f) =>
        match (nearestLoop c cities connected).1 with
        | none => chainLoop cities fuel connected (some (c, f)) c trace routeTiles r
        | some nearest =>
          let s := connectCities c nearest routeTiles r
          chainLoop cities fuel (insertTile (insertTile connected c) nearest)
            (some (nearest, f)) c (trace ++ [(c, nearest)]) s.1 s.2
    else
      match cur with
      | none => none
      | some p => some (trace, p.2, last, p.1, routeTiles, r)

/-- Intra-cluster connection for one cluster: skip clusters of fewer than 2
settlements, otherwise run the chaining loop and finally connect `firstCity`
to `lastCity`.  Returns the trace of `connectCities` calls made for the
cluster together with the accumulated route tiles. -/
def generateRoutesCluster (cities : List Tile) (routeTiles : List Tile) (r : RandSrc) :
    Option (List (Tile × Tile) × List Tile × RandSrc) :=
  if cities.length < 2 then some ([], routeTiles, r)
  else
    match chainLoop cities (cities.length + 1) [] none ⟨0, 0⟩ [] routeTiles r with
    | none => none
    | some (trace, f, last, _, tiles2, r2) =>
      let s := connectCities f last tiles2 r2
      some (trace ++ [(f, last)], s.1, s.2)

/-- The `for _, cities := range cityClusters` loop of `generateRoutes`. -/
def generateRoutesClusters (clusters : List (List Tile)) (routeTiles : List Tile)
    (r : RandSrc) : Option (List Tile × RandSrc) :=
  match clusters with
  | [] => some (routeTiles, r)
  | cities :: rest =>
    match generateRoutesCluster cities routeTiles r with
    | none => none
    | some (_, tiles2, r2) => generateRoutesClusters rest tiles2 r2

/-- The inter-cluster nearest-pair search of `generateRoutes`: nested loops
over the first two clusters with `minDistance := 99999`, strictly closest pair
wins, starting from the zero tiles. -/
def interPair (c0 c1 : List Tile) : Tile × Tile :=
  let res :=
    c0.foldl
      (fun acc a =>
        c1.foldl
          (fun acc2 b =>
            if a.Distance b < acc2.2.2 then (a, b, a.Distance b) else acc2)
          acc)
      ((⟨0, 0⟩ : Tile), (⟨0, 0⟩ : Tile), (99999 : Int))
  (res.1, res.2.1)

/-- `generateRoutes`: connect each cluster internally, then connect the two
clusters through their nearest settlement pair.  Accessing `cityClusters[0]`
or `cityClusters[1]` of a shorter cluster list is a Go panic: `none`. -/
def generateRoutes (cityClusters : List (List Tile)) (r : RandSrc) :
    Option (List Tile × RandSrc) :=
  match generateRoutesClusters cityClusters [] r with
  | none => none
  | some (routeTiles, r1) =>
    match cityClusters[0]?, cityClusters[1]? with
    | some c0, some c1 =>
      let p := interPair c0 c1
      some (connectCities p.1 p.2 routeTiles r1)
    | _, _ => none

/-- `GenerateRegionMap`: the full pipeline, threading the freshly seeded global
random source. -/
def GenerateRegionMap (simplexNew : Int → ℚ → ℚ → ℚ) (km : KMeans)
    (seedStream : Int → Nat → Nat) (seed : Int) (pixelWidth pixelHeight : Nat)
    (numCities : Nat) : Option (Except String RegionMap) :=
  let r0 := randSeed seedStream seed
  let er := generateElevations simplexNew (getNewElevationMap pixelWidth pixelHeight) r0
  match getValidLandmarkTiles er.1 with
  | none => none
  | some validTiles =>
    match
      generateCities
        (partitionTilesByLocation 100 100 ((pixelWidth / 8 : Nat) : Int)
          ((pixelHeight / 8 : Nat) : Int) validTiles)
        numCities er.2 with
    | none => none
    | some cr =>
      match clusterCities km cr.1 with
      | Except.error e => some (Except.error e)
      | Except.ok cityClusters =>
        match generateRoutes cityClusters cr.2 with
        | none => none
        | some rr =>
          some (Except.ok ⟨pixelWidth, pixelHeight, er.1, cr.1, rr.1⟩)

/-- `GenerateBaseRegionMap`: elevations only. -/
def GenerateBaseRegionMap (simplexNew : Int → ℚ → ℚ → ℚ)
    (seedStream : Int → Nat → Nat) (seed : Int) (pixelWidth pixelHeight : Nat) :
    RegionMap :=
  let r0 := randSeed seedStream seed
  let er := generateElevations simplexNew (getNewElevationMap pixelWidth pixelHeight) r0
  ⟨pixelWidth, pixelHeight, er.1, [], []⟩

/-- `GenerateRegionMapWithCities`: regenerate only the cities of an existing
map, reusing its elevation field. -/
def GenerateRegionMapWithCities (seedStream : Int → Nat → Nat) (seed : Int)
    (numCities : Nat) (regionMap : RegionMap) : Option RegionMap :=
  let r0 := randSeed seedStream seed
  match getValidLandmarkTiles regionMap.Elevations with
  | none => none
  | some validTiles =>
    match
      generateCities
        (partitionTilesByLocation 100 100 ((regionMap.PixelWidth / 8 : Nat) : Int)
          ((regionMap.PixelHeight / 8 : Nat) : Int) validTiles)
        numCities r0 with
    | none => none
    | some cr => some { regionMap with Cities := cr.1 }

/-- `GenerateRegionMapWithRoutes`: regenerate only the routes of an existing
map, reusing its cities. -/
def GenerateRegionMapWithRoutes (km : KMeans) (seedStream : Int → Nat → Nat)
    (seed : Int) (regionMap : RegionMap) : Option (Except String RegionMap) :=
  let r0 := randSeed seedStream seed
  match clusterCities km regionMap.Cities with
  | Except.error e => some (Except.error e)
  | Except.ok cityClusters =>
    match generateRoutes cityClusters r0 with
    | none => none
    | some rr => some (Except.ok { regionMap with Routes := rr.1 })

/-! ### Helper lemmas -/

theorem contains_eq_true_iff_mem {s : List Tile} {t : Tile} :
    s.contains t = true ↔ t ∈ s := List.elem_iff

theorem mem_insertTile_of_mem {s : List Tile} {t u : Tile} (h : t ∈ s) :
    t ∈ insertTile s u := by
  unfold insertTile
  split
  · exact h
  · exact List.mem_append_left _ h

theorem mem_insertTile_self (s : List Tile) (t : Tile) : t ∈ insertTile s t := by
  unfold insertTile
  split
  · next hc => exact contains_eq_true_iff_mem.mp hc
  · exact List.mem_append_right _ (List.mem_singleton.mpr rfl)

theorem mem_foldl_insertTile {β : Type} (l : List β) (g : β → Tile) (s : List Tile)
    (t : Tile) (h : t ∈ s ∨ ∃ k ∈ l, g k = t) :
    t ∈ l.foldl (fun acc k => insertTile acc (g k)) s := by
  induction l generalizing s with
  | nil =>
    rcases h with h | ⟨k, hk, _⟩
    · simpa using h
    · simp at hk
  | cons x xs ih =>
    simp only [List.foldl_cons]
    apply ih
    rcases h with h | ⟨k, hk, hgk⟩
    · exact Or.inl (mem_insertTile_of_mem h)
    · rcases List.mem_cons.mp hk with rfl | hk2
      · exact Or.inl (hgk ▸ mem_insertTile_self s (g k))
      · exact Or.inr ⟨k, hk2, hgk⟩

/-! ### C1 -/

/-- C1: the Route Builder does NOT connect the settlement at which the chain
ended back to the first settlement.  On the cluster
`[(1,3), (3,3), (9,3)]` the nearest-neighbor chain is
`(1,3) → (3,3) → (9,3)`, so the chain's final `current` is `(9,3)`; but the
closing `connectCities` call is `((1,3), (3,3))` — `lastCity` holds the value
of `current` from the start of the final iteration, the penultimate chain
node.  The settlement `(9,3)` takes part in exactly one connection (a dead-end
stub), so the cluster's route graph is not a closed cycle and not every
settlement has ≥ 2 route connections, contradicting the claim and the spec's
stated deliberate cycle guarantee. -/
theorem c1_closing_connection_misses_chain_end :
    (generateRoutesCluster [⟨1, 3⟩, ⟨3, 3⟩, ⟨9, 3⟩] [] ⟨fun _ => 0, 0⟩).map
        (fun x => x.1) =
      some [((⟨1, 3⟩ : Tile), (⟨3, 3⟩ : Tile)), (⟨3, 3⟩, ⟨9, 3⟩), (⟨1, 3⟩, ⟨3, 3⟩)] ∧
    (chainLoop [⟨1, 3⟩, ⟨3, 3⟩, ⟨9, 3⟩] 4 [] none ⟨0, 0⟩ [] [] ⟨fun _ => 0, 0⟩).map
        (fun x => (x.2.1, x.2.2.1, x.2.2.2.1)) =
      some ((⟨1, 3⟩ : Tile), (⟨3, 3⟩ : Tile), (⟨9, 3⟩ : Tile)) ∧
    ([((⟨1, 3⟩ : Tile), (⟨3, 3⟩ : Tile)), (⟨3, 3⟩, ⟨9, 3⟩), (⟨1, 3⟩, ⟨3, 3⟩)].filter
        (fun p => p.1 == (⟨9, 3⟩ : Tile) || p.2 == (⟨9, 3⟩ : Tile))).length = 1 :=
  ⟨rfl, rfl, by decide⟩

/-! ### C3 -/

theorem assocLookup_addToPartition_same (parts : List (String × List Tile))
    (key : String) (t : Tile) :
    assocLookup (addToPartition parts key t) key = assocLookup parts key ++ [t] := by
  induction parts with
  | nil => simp [addToPartition, assocLookup]
  | cons p rest ih =>
    by_cases hp : p.1 = key
    · simp [addToPartition, assocLookup, hp]
    · simp [addToPartition, assocLookup, hp, ih]

theorem assocLookup_addToPartition_other (parts : List (String × List Tile))
    (key k : String) (t : Tile) (hk : k ≠ key) :
    assocLookup (addToPartition parts key t) k = assocLookup parts k := by
  induction parts with
  | nil => simp [addToPartition, assocLookup, Ne.symm hk]
  | cons p rest ih =>
    by_cases hp : p.1 = key
    · simp [addToPartition, assocLookup, hp, Ne.symm hk]
    · by_cases hpk : p.1 = k
      · simp [addToPartition, assocLookup, hp, hpk, hk]
      · simp [addToPartition, assocLookup, hp, hpk, ih]

theorem partition_fold_mem (pw ph : Int) (tiles : List Tile)
    (acc : List (String × List Tile)) (t : Tile)
    (h : t ∈ tiles ∨ t ∈ assocLookup acc (keyStr (Int.tdiv t.X pw) (Int.tdiv t.Y ph))) :
    t ∈ assocLookup
        (tiles.foldl
          (fun partitions u =>
            addToPartition partitions
              (keyStr (Int.tdiv u.X pw) (Int.tdiv u.Y ph)) u)
          acc)
        (keyStr (Int.tdiv t.X pw) (Int.tdiv t.Y ph)) := by
  induction tiles generalizing acc with
  | nil =>
    rcases h with h | h
    · simp at h
    · simpa using h
  | cons u us ih =>
    simp only [List.foldl_cons]
    apply ih
    rcases h with h | h
    · rcases List.mem_cons.mp h with rfl | h2
      · right
        rw [assocLookup_addToPartition_same]
        exact List.mem_append_right _ (List.mem_singleton.mpr rfl)
      · exact Or.inl h2
    · right
      by_cases hkey : keyStr (Int.tdiv t.X pw) (Int.tdiv t.Y ph) =
          keyStr (Int.tdiv u.X pw) (Int.tdiv u.Y ph)
      · rw [hkey, assocLookup_addToPartition_same]
        rw [hkey] at h
        exact List.mem_append_left _ h
      · rw [assocLookup_addToPartition_other _ _ _ _ hkey]
        exact h

/-- C3 amended: the Spatial Partitioner groups tile `t` under the key
`(t.X / partitionWidth, t.Y / partitionHeight)` — at the call sites
`(t.X / 100, t.Y / 100)`, Go truncated division of the tile coordinates by the
pixel partition size directly; the `tileWidth`/`tileHeight` arguments play no
part. -/
theorem c3_partition_key_divides_by_partition_size (pw ph tw th : Int)
    (tiles : List Tile) (t : Tile) (ht : t ∈ tiles) :
    t ∈ assocLookup (partitionTilesByLocation pw ph tw th tiles)
        (keyStr (Int.tdiv t.X pw) (Int.tdiv t.Y ph)) := by
  unfold partitionTilesByLocation
  exact partition_fold_mem pw ph tiles [] t (Or.inl ht)

/-- C3 witness: the amended key formula evaluated on the tile `(13, 0)` with
the real call-site arguments. -/
theorem c3_partition_key_witness :
    ((⟨13, 0⟩ : Tile) ∈ [(⟨13, 0⟩ : Tile)]) ∧
    (⟨13, 0⟩ : Tile) ∈ assocLookup (partitionTilesByLocation 100 100 12 12 [⟨13, 0⟩])
        (keyStr (Int.tdiv 13 100) (Int.tdiv 0 100)) :=
  ⟨by decide,
   c3_partition_key_divides_by_partition_size 100 100 12 12 [⟨13, 0⟩] ⟨13, 0⟩ (by decide)⟩

/-- C3 counterexample: the tile `(13, 0)` is grouped under the key `"0:0"`,
whereas the claimed key `(floor(13 / (100/8)), floor(0 / (100/8)))` — equally
the claimed call-site form `(13 / (96/8), 0 / (96/8)) = (13/12, 0/12)` — is
`(1, 0)`, i.e. `"1:0"`, a different key. -/
theorem c3_partition_key_counterexample :
    (partitionTilesByLocation 100 100 12 12 [⟨13, 0⟩]).map (fun p => p.1) = ["0:0"] ∧
    keyStr (Int.tdiv 13 12) (Int.tdiv 0 12) = "1:0" ∧
    ("0:0" : String) ≠ "1:0" :=
  ⟨rfl, rfl, by decide⟩

/-! ### C6 -/

theorem start_mem_connectHorizontalRoute (start stop : Tile) (s : List Tile)
    (hx : start.X ≠ stop.X) : start ∈ (connectHorizontalRoute start stop s).2 := by
  unfold connectHorizontalRoute
  refine mem_foldl_insertTile (List.range (stop.X - start.X).natAbs)
    (fun k => (⟨start.X + (if start.X > stop.X then -1 else 1) * (k : Int), start.Y⟩ : Tile))
    s start (Or.inr ⟨0, ?_, ?_⟩)
  · rw [List.mem_range, Int.natAbs_pos]
    exact sub_ne_zero.mpr (Ne.symm hx)
  · simp

theorem start_mem_connectVerticalRoute (start stop : Tile) (s : List Tile)
    (hy : start.Y ≠ stop.Y) : start ∈ (connectVerticalRoute start stop s).2 := by
  unfold connectVerticalRoute
  refine mem_foldl_insertTile (List.range (stop.Y - start.Y).natAbs)
    (fun k => (⟨start.X, start.Y + (if start.Y > stop.Y then -1 else 1) * (k : Int)⟩ : Tile))
    s start (Or.inr ⟨0, ?_, ?_⟩)
  · rw [List.mem_range, Int.natAbs_pos]
    exact sub_ne_zero.mpr (Ne.symm hy)
  · simp

theorem mem_connectHorizontalRoute_of_mem (start stop : Tile) (s : List Tile)
    (t : Tile) (h : t ∈ s) : t ∈ (connectHorizontalRoute start stop s).2 := by
  unfold connectHorizontalRoute
  exact mem_foldl_insertTile (List.range (stop.X - start.X).natAbs)
    (fun k => (⟨start.X + (if start.X > stop.X then -1 else 1) * (k : Int), start.Y⟩ : Tile))
    s t (Or.inl h)

theorem mem_connectVerticalRoute_of_mem (start stop : Tile) (s : List Tile)
    (t : Tile) (h : t ∈ s) : t ∈ (connectVerticalRoute start stop s).2 := by
  unfold connectVerticalRoute
  exact mem_foldl_insertTile (List.range (stop.Y - start.Y).natAbs)
    (fun k => (⟨start.X, start.Y + (if start.Y > stop.Y then -1 else 1) * (k : Int)⟩ : Tile))
    s t (Or.inl h)

/-- C6 amended: Route Tiles are not confined to even-parity tiles and can
coincide with Settlement Tiles — every `connectCities` call between two
distinct tiles lays a Route Tile on its starting settlement tile itself,
whichever way the coin flip goes. -/
theorem c6_connection_starts_on_settlement_tile (cityA cityB : Tile)
    (routeTiles : List Tile) (r : RandSrc) (hne : cityA ≠ cityB) :
    cityA ∈ (connectCities cityA cityB routeTiles r).1 := by
  have hxy : cityA.X ≠ cityB.X ∨ cityA.Y ≠ cityB.Y := by
    by_contra hc
    push_neg at hc
    exact hne (by cases cityA; cases cityB; simp_all)
  have branchH : cityA ∈ (connectVerticalRoute (connectHorizontalRoute cityA cityB routeTiles).1
      cityB (connectHorizontalRoute cityA cityB routeTiles).2).2 := by
    by_cases hx : cityA.X = cityB.X
    · have hy : cityA.Y ≠ cityB.Y := by
        rcases hxy with h | h
        · exact absurd hx h
        · exact h
      have helbow : (connectHorizontalRoute cityA cityB routeTiles).1 = cityA := by
        have h1 : (connectHorizontalRoute cityA cityB routeTiles).1 = ⟨cityB.X, cityA.Y⟩ := rfl
        rw [h1, ← hx]
      rw [helbow]
      exact start_mem_connectVerticalRoute cityA cityB _ hy
    · exact mem_connectVerticalRoute_of_mem _ _ _ _
        (start_mem_connectHorizontalRoute cityA cityB routeTiles hx)
  have branchV : cityA ∈ (connectHorizontalRoute (connectVerticalRoute cityA cityB routeTiles).1
      cityB (connectVerticalRoute cityA cityB routeTiles).2).2 := by
    by_cases hy : cityA.Y = cityB.Y
    · have hx : cityA.X ≠ cityB.X := by
        rcases hxy with h | h
        · exact h
        · exact absurd hy h
      have helbow : (connectVerticalRoute cityA cityB routeTiles).1 = cityA := by
        have h1 : (connectVerticalRoute cityA cityB routeTiles).1 = ⟨cityA.X, cityB.Y⟩ := rfl
        rw [h1, ← hy]
      rw [helbow]
      exact start_mem_connectHorizontalRoute cityA cityB _ hx
    · exact mem_connectHorizontalRoute_of_mem _ _ _ _
        (start_mem_connectVerticalRoute cityA cityB routeTiles hy)
  unfold connectCities
  by_cases hcoin : (randIntn r 2).1 = 0
  · rw [if_pos hcoin]
    exact branchH
  · rw [if_neg hcoin]
    exact branchV

/-- C6 witness: a concrete connection between the distinct settlements
`(1,3)` and `(3,3)` contains the settlement tile `(1,3)` among its route
tiles. -/
theorem c6_connection_start_witness :
    ((⟨1, 3⟩ : Tile) ≠ (⟨3, 3⟩ : Tile)) ∧
    (⟨1, 3⟩ : Tile) ∈ (connectCities ⟨1, 3⟩ ⟨3, 3⟩ [] ⟨fun _ => 0, 0⟩).1 :=
  ⟨by decide, c6_connection_starts_on_settlement_tile ⟨1, 3⟩ ⟨3, 3⟩ [] ⟨fun _ => 0, 0⟩
    (by decide)⟩

/-- C6 counterexample: on the cluster assignment
`[[(1,3), (3,3)], [(1,7), (3,7)]]` the Route Builder emits the Route Tile set
`{(1,3), (2,3), (1,7), (2,7), (1,4), (1,5), (1,6)}`, which contains the
Settlement Tiles `(1,3)` and `(1,7)` (both odd/odd parity), refuting the claim
that no Route Tile coincides with a Settlement Tile. -/
theorem c6_route_overlaps_settlement_counterexample :
    (generateRoutes [[⟨1, 3⟩, ⟨3, 3⟩], [⟨1, 7⟩, ⟨3, 7⟩]] ⟨fun _ => 0, 0⟩).map Prod.fst =
      some [⟨1, 3⟩, ⟨2, 3⟩, ⟨1, 7⟩, ⟨2, 7⟩, ⟨1, 4⟩, ⟨1, 5⟩, ⟨1, 6⟩] ∧
    (⟨1, 3⟩ : Tile) ∈ [(⟨1, 3⟩ : Tile), ⟨2, 3⟩, ⟨1, 7⟩, ⟨2, 7⟩, ⟨1, 4⟩, ⟨1, 5⟩, ⟨1, 6⟩] ∧
    (⟨1, 3⟩ : Tile) ∈ [(⟨1, 3⟩ : Tile), ⟨3, 3⟩] :=
  ⟨rfl, by decide, by decide⟩

/-! ### C10 -/

/-- C10: `GenerateRegionMapWithCities` only replaces the `Cities` field;
`PixelWidth`, `PixelHeight`, `Elevations` and `Routes` (including previously
generated routes) are returned unchanged whenever the call returns at all. -/
theorem c10_with_cities_frame (seedStream : Int → Nat → Nat) (seed : Int)
    (numCities : Nat) (m m2 : RegionMap)
    (h : GenerateRegionMapWithCities seedStream seed numCities m = some m2) :
    m2.PixelWidth = m.PixelWidth ∧ m2.PixelHeight = m.PixelHeight ∧
      m2.Elevations = m.Elevations ∧ m2.Routes = m.Routes := by
  simp only [GenerateRegionMapWithCities] at h
  split at h
  · exact absurd h (by simp)
  · split at h
    · exact absurd h (by simp)
    · rw [Option.some_inj] at h
      subst h
      exact ⟨rfl, rfl, rfl, rfl⟩

/-- A concrete all-land 8×8 map used by the C10 witness. -/
def c10Map : RegionMap := ⟨8, 8, List.replicate 8 (List.replicate 8 1), [], []⟩

/-- C10 witness: regenerating cities on the concrete map returns a map with
only the `Cities` field changed. -/
theorem c10_with_cities_frame_witness :
    GenerateRegionMapWithCities (fun _ _ => 0) 0 0 c10Map =
      some { c10Map with Cities := [] } ∧
    ({ c10Map with Cities := ([] : List Tile) }.PixelWidth = c10Map.PixelWidth ∧
      { c10Map with Cities := ([] : List Tile) }.PixelHeight = c10Map.PixelHeight ∧
      { c10Map with Cities := ([] : List Tile) }.Elevations = c10Map.Elevations ∧
      { c10Map with Cities := ([] : List Tile) }.Routes = c10Map.Routes) :=
  ⟨rfl, c10_with_cities_frame (fun _ _ => 0) 0 0 c10Map _ rfl⟩

/-! ### C4 -/

theorem getD_mem_of_lt {α : Type} (l : List α) (n : Nat) (d : α) (h : n < l.length) :
    l.getD n d ∈ l := by
  rw [List.getD_eq_getElem?_getD, List.getElem?_eq_getElem h]
  exact List.getElem_mem h

theorem mem_of_mem_listSwap {l : List String} {i j : Nat} {a : String}
    (hi : i < l.length) (hj : j < l.length) (h : a ∈ listSwap l i j) : a ∈ l := by
  unfold listSwap at h
  rcases List.mem_or_eq_of_mem_set h with h2 | rfl
  · rcases List.mem_or_eq_of_mem_set h2 with h3 | rfl
    · exact h3
    · exact getD_mem_of_lt l j "" hj
  · exact getD_mem_of_lt l i "" hi

theorem length_listSwap (l : List String) (i j : Nat) :
    (listSwap l i j).length = l.length := by
  simp [listSwap]

theorem length_randShuffleGo (l : List String) (r : RandSrc) (i : Nat) :
    (randShuffleGo l r i).1.length = l.length := by
  induction i generalizing l r with
  | zero => rfl
  | succ i ih =>
    rw [randShuffleGo]
    rw [ih, length_listSwap]

theorem mem_of_mem_randShuffleGo (l : List String) (r : RandSrc) (i : Nat)
    (hi : i < l.length) (a : String) (h : a ∈ (randShuffleGo l r i).1) : a ∈ l := by
  induction i generalizing l r with
  | zero => simpa [randShuffleGo] using h
  | succ i ih =>
    rw [randShuffleGo] at h
    have hj : (randIntn r (i + 2)).1 < l.length := by
      have hlt : (randIntn r (i + 2)).1 < i + 2 := Nat.mod_lt _ (by omega)
      omega
    have hlen := length_listSwap l (i + 1) (randIntn r (i + 2)).1
    exact mem_of_mem_listSwap hi hj (ih _ _ (by omega) h)

theorem length_randShuffle (l : List String) (r : RandSrc) :
    (randShuffle l r).1.length = l.length :=
  length_randShuffleGo l r (l.length - 1)

theorem mem_of_mem_randShuffle (l : List String) (r : RandSrc) (a : String)
    (h : a ∈ (randShuffle l r).1) : a ∈ l := by
  unfold randShuffle at h
  rcases Nat.eq_zero_or_pos l.length with h0 | hpos
  · have he : l.length - 1 = 0 := by omega
    rw [he] at h
    simpa [randShuffleGo] using h
  · exact mem_of_mem_randShuffleGo l r (l.length - 1) (by omega) a h

theorem placeAttempts_isSome (partition cities : List Tile) (r : RandSrc) (n : Nat)
    (hne : partition ≠ []) : (placeAttempts partition cities r n).isSome = true := by
  induction n generalizing cities r with
  | zero => simp [placeAttempts]
  | succ i ih =>
    have hemp : partition.isEmpty = false := by
      simpa [List.isEmpty_iff] using hne
    rcases htp : tryPickAux partition r 50 with ⟨opt, r2⟩
    rw [placeAttempts]
    simp only [tryPickCityTile, hemp, Bool.false_eq_true, if_false, htp]
    cases opt with
    | some city =>
      by_cases hc : city ∈ cities
      · simp [hc, ih]
      · simp [hc]
    | none => simp [ih]

theorem assocLookup_ne_nil_of_key_mem (partitions : List (String × List Tile))
    (k : String) (hk : k ∈ partitions.map fun p => p.1)
    (hb : ∀ p ∈ partitions, p.2 ≠ []) : assocLookup partitions k ≠ [] := by
  induction partitions with
  | nil => simp at hk
  | cons p rest ih =>
    by_cases hp : p.1 = k
    · simpa [assocLookup, hp] using hb p (List.mem_cons_self p rest)
    · have hkr : k ∈ rest.map fun q => q.1 := by
        rcases List.mem_map.mp hk with ⟨q, hq, hq1⟩
        rcases List.mem_cons.mp hq with rfl | hq2
        · exact absurd hq1 hp
        · exact List.mem_map.mpr ⟨q, hq2, hq1⟩
      simpa [assocLookup, hp] using ih hkr (fun q hq => hb q (List.mem_cons_of_mem p hq))

theorem generateCitiesLoop_isSome (partitions : List (String × List Tile))
    (keys : List String) (n : Nat) (c : Nat) (cities : List Tile) (r : RandSrc)
    (hk : keys ≠ []) (hb : ∀ k ∈ keys, assocLookup partitions k ≠ []) :
    (generateCitiesLoop partitions keys n c cities r).isSome = true := by
  induction n generalizing c cities r with
  | zero => simp [generateCitiesLoop]
  | succ m ih =>
    rw [generateCitiesLoop]
    have hlen : ¬keys.length = 0 := fun h0 => hk (List.length_eq_zero.mp h0)
    rw [if_neg hlen]
    have hkey : keys.getD (c % keys.length) "" ∈ keys :=
      getD_mem_of_lt keys _ "" (Nat.mod_lt _ (Nat.pos_of_ne_zero hlen))
    have hpa := placeAttempts_isSome
      (assocLookup partitions (keys.getD (c % keys.length) "")) cities r 50 (hb _ hkey)
    rcases Option.isSome_iff_exists.mp hpa with ⟨⟨cities2, r2⟩, hpaeq⟩
    simp only [hpaeq]
    exact ih (c + 1) cities2 r2

/-- C4 amended: the Settlement Placer is total — it always returns a
settlement set — whenever the partition map is nonempty with nonempty buckets
(which is what the Spatial Partitioner always produces for a nonempty
eligible-tile list); but when the eligible-tile list, and hence the partition
map, is empty and at least one settlement is requested, the round-robin index
computation `c % len(partitionKeys)` divides by zero and the placer crashes
rather than returning an empty set (see the counterexample). -/
theorem c4_placer_total_on_nonempty_partitions (partitions : List (String × List Tile))
    (numCities : Nat) (r : RandSrc) (hne : partitions ≠ [])
    (hb : ∀ p ∈ partitions, p.2 ≠ []) :
    (generateCities partitions numCities r).isSome = true := by
  simp only [generateCities]
  apply generateCitiesLoop_isSome
  · intro h0
    have hl := length_randShuffle (partitions.map fun p => p.1) r
    rw [h0] at hl
    simp only [List.length_nil] at hl
    exact hne (List.map_eq_nil_iff.mp (List.length_eq_zero.mp hl.symm))
  · intro k hkmem2
    exact assocLookup_ne_nil_of_key_mem partitions k
      (mem_of_mem_randShuffle (partitions.map fun p => p.1) r k hkmem2) hb

/-- C4 counterexample: with an empty partition map (which is what an empty
eligible-tile list — e.g. an all-water elevation field — produces) and one
requested settlement, the Settlement Placer evaluates `c % len(partitionKeys)`
with `len(partitionKeys) = 0`: an integer division by zero, a crash rather
than a normal return of a (possibly empty) settlement set. -/
theorem c4_empty_partitions_crash :
    generateCities [] 1 ⟨fun _ => 0, 0⟩ = none := rfl

/-- C4 witness: the amended totality applied to a concrete one-bucket
partition map. -/
theorem c4_placer_total_witness :
    (([(("0:0" : String), [(⟨1, 3⟩ : Tile)])] : List (String × List Tile)) ≠ []) ∧
    (∀ p ∈ [(("0:0" : String), [(⟨1, 3⟩ : Tile)])], p.2 ≠ ([] : List Tile)) ∧
    (generateCities [("0:0", [⟨1, 3⟩])] 1 ⟨fun _ => 0, 0⟩).isSome = true :=
  ⟨by decide, by decide,
   c4_placer_total_on_nonempty_partitions [("0:0", [⟨1, 3⟩])] 1 ⟨fun _ => 0, 0⟩
     (by decide) (by decide)⟩

/-! ### C2 -/

/-- The validity conditions `tryPickCityTile` enforces on a settlement tile:
odd/odd parity, the UI bounds `1 ≤ X ≤ 28`, `2 ≤ Y ≤ 16`, and the two
exclusion boxes. -/
def validCityTile (t : Tile) : Prop :=
  Int.tmod t.X 2 = 1 ∧ Int.tmod t.Y 2 = 1 ∧ 1 ≤ t.X ∧ 2 ≤ t.Y ∧ t.X ≤ 28 ∧ t.Y ≤ 16 ∧
    ¬(14 < t.X ∧ 14 < t.Y) ∧ ¬(19 < t.X ∧ t.Y < 5)

instance : DecidablePred validCityTile := fun t => by
  unfold validCityTile
  infer_instance

theorem tryPickAux_valid (partition : List Tile) (r : RandSrc) (n : Nat)
    (t : Tile) (r2 : RandSrc) (h : tryPickAux partition r n = (some t, r2)) :
    validCityTile t := by
  induction n generalizing r with
  | zero => simp [tryPickAux] at h
  | succ j ih =>
    simp only [tryPickAux] at h
    split at h
    · exact ih _ h
    · split at h
      · exact ih _ h
      · split at h
        · exact ih _ h
        · split at h
          · exact ih _ h
          · rename_i hc1 hc2 hc3 hc4
            rw [Prod.mk.injEq] at h
            injection h.1 with h1
            subst h1
            unfold validCityTile
            push_neg at hc1 hc2
            exact ⟨hc1.1, hc1.2, hc2.1, hc2.2.1, hc2.2.2.1, hc2.2.2.2, hc3, hc4⟩

theorem placeAttempts_spec (partition cities : List Tile) (r : RandSrc) (n : Nat)
    (cities2 : List Tile) (r2 : RandSrc)
    (h : placeAttempts partition cities r n = some (cities2, r2)) :
    cities2 = cities ∨ ∃ t, validCityTile t ∧ t ∉ cities ∧ cities2 = cities ++ [t] := by
  induction n generalizing r with
  | zero =>
    simp only [placeAttempts, Option.some_inj, Prod.mk.injEq] at h
    exact Or.inl h.1.symm
  | succ i ih =>
    rw [placeAttempts] at h
    cases hpc : tryPickCityTile partition r with
    | none =>
      rw [hpc] at h
      simp at h
    | some pr =>
      rw [hpc] at h
      obtain ⟨opt, r3⟩ := pr
      cases opt with
      | some city =>
        by_cases hc : cities.contains city = true
        · simp only [hc, if_true] at h
          exact ih r3 h
        · simp only [hc, if_false, Bool.false_eq_true, Option.some_inj,
            Prod.mk.injEq] at h
          refine Or.inr ⟨city, ?_, ?_, h.1.symm⟩
          · have htp : tryPickAux partition r 50 = (some city, r3) := by
              unfold tryPickCityTile at hpc
              split at hpc
              · exact absurd hpc (by simp)
              · exact Option.some_inj.mp hpc
            exact tryPickAux_valid partition r 50 city r3 htp
          · exact fun hm => hc (contains_eq_true_iff_mem.mpr hm)
      | none =>
        simp only at h
        exact ih r3 h

theorem generateCitiesLoop_spec (partitions : List (String × List Tile))
    (keys : List String) (n : Nat) (c : Nat) (cities : List Tile) (r : RandSrc)
    (out : List Tile) (r2 : RandSrc)
    (h : generateCitiesLoop partitions keys n c cities r = some (out, r2))
    (hv : ∀ t ∈ cities, validCityTile t) (hnd : cities.Nodup) :
    (∀ t ∈ out, validCityTile t) ∧ out.Nodup ∧ out.length ≤ cities.length + n := by
  induction n generalizing c cities r with
  | zero =>
    simp only [generateCitiesLoop, Option.some_inj, Prod.mk.injEq] at h
    obtain ⟨h1, -⟩ := h
    subst h1
    exact ⟨hv, hnd, by omega⟩
  | succ m ih =>
    simp only [generateCitiesLoop] at h
    by_cases hk : keys.length = 0
    · rw [if_pos hk] at h
      simp at h
    · rw [if_neg hk] at h
      cases hpa : placeAttempts (assocLookup partitions (keys.getD (c % keys.length) ""))
          cities r 50 with
      | none =>
        rw [hpa] at h
        simp at h
      | some pr =>
        rw [hpa] at h
        obtain ⟨cities2, r3⟩ := pr
        rcases placeAttempts_spec _ _ _ _ _ _ hpa with heq | ⟨t, htv, htn, heq⟩
        · subst heq
          have := ih (c + 1) cities2 r3 h hv hnd
          exact ⟨this.1, this.2.1, by omega⟩
        · subst heq
          have hv2 : ∀ u ∈ cities ++ [t], validCityTile u := by
            intro u hu
            rcases List.mem_append.mp hu with hu | hu
            · exact hv u hu
            · rw [List.mem_singleton.mp hu]
              exact htv
          have hnd2 : (cities ++ [t]).Nodup := by
            rw [List.nodup_append]
            exact ⟨hnd, List.nodup_singleton t,
              fun a ha hb => htn ((List.mem_singleton.mp hb) ▸ ha)⟩
          have := ih (c + 1) (cities ++ [t]) r3 h hv2 hnd2
          refine ⟨this.1, this.2.1, ?_⟩
          have hlen := this.2.2
          rw [List.length_append, List.length_singleton] at hlen
          omega

/-- C2: every settlement set the Settlement Placer returns consists of tiles
with odd X and odd Y, within `1 ≤ X ≤ 28` and `2 ≤ Y ≤ 16`, outside both
exclusion boxes (`validCityTile`), with no duplicate tile, and contains at
most the requested number of settlements. -/
theorem c2_settlement_constraints (partitions : List (String × List Tile))
    (numCities : Nat) (r : RandSrc) (cities : List Tile) (r2 : RandSrc)
    (h : generateCities partitions numCities r = some (cities, r2)) :
    (∀ t ∈ cities, validCityTile t) ∧ cities.Nodup ∧ cities.length ≤ numCities := by
  simp only [generateCities] at h
  have hs := generateCitiesLoop_spec partitions
    (randShuffle (partitions.map fun p => p.1) r).1 numCities 0 []
    (randShuffle (partitions.map fun p => p.1) r).2 cities r2 h
    (by simp) List.nodup_nil
  simpa using hs

/-- C2 witness: a concrete run that places one settlement. -/
theorem c2_settlement_constraints_witness :
    generateCities [("0:0", [⟨1, 3⟩])] 1 ⟨fun _ => 0, 0⟩ =
      some ([(⟨1, 3⟩ : Tile)], ⟨fun _ => 0, 1⟩) ∧
    ((∀ t ∈ [(⟨1, 3⟩ : Tile)], validCityTile t) ∧
      ([(⟨1, 3⟩ : Tile)] : List Tile).Nodup ∧ ([(⟨1, 3⟩ : Tile)] : List Tile).length ≤ 1) :=
  ⟨rfl, c2_settlement_constraints [("0:0", [⟨1, 3⟩])] 1 ⟨fun _ => 0, 0⟩
    [⟨1, 3⟩] ⟨fun _ => 0, 1⟩ rfl⟩

/-! ### C8 -/

/-- C8: for every seed, dimensions and in-range pixel `(x, y)`, the generated
elevation equals
`n1(x/100, y/100) + 0.2 + n2(x/20, y/20) * 0.15 + n3(x/15, y/15) * (n4(x/50, y/50) * 0.6)`,
where `n1 … n4` are the four noise generators built, in order, from the first
four `rand.Int63` draws of the stream determined by the input seed; the whole
field is therefore a function of `(seed, width, height)` alone. -/
theorem c8_elevation_formula (simplexNew : Int → ℚ → ℚ → ℚ)
    (seedStream : Int → Nat → Nat) (seed : Int) (w h x y : Nat)
    (hx : x < w) (hy : y < h) :
    elevAt (generateElevations simplexNew (getNewElevationMap w h)
        (randSeed seedStream seed)).1 x y =
      some (simplexNew ((seedStream seed 0 : Nat) : Int) ((x : ℚ) / 100) ((y : ℚ) / 100)
          + 0.2 +
        simplexNew ((seedStream seed 1 : Nat) : Int) ((x : ℚ) / 20) ((y : ℚ) / 20) * 0.15 +
        simplexNew ((seedStream seed 2 : Nat) : Int) ((x : ℚ) / 15) ((y : ℚ) / 15) *
          (simplexNew ((seedStream seed 3 : Nat) : Int) ((x : ℚ) / 50) ((y : ℚ) / 50)
            * 0.6)) := by
  simp only [generateElevations, getNewElevationMap, randSeed, randInt63, elevAt]
  rw [List.getElem?_mapIdx, List.getElem?_replicate, if_pos hx]
  simp only [Option.map_some', Option.some_bind]
  rw [List.getElem?_mapIdx, List.getElem?_replicate, if_pos hy]
  simp only [Option.map_some']

/-- A concrete noise family used by the C8 witness. -/
def simplexNewWitness : Int → ℚ → ℚ → ℚ := fun s a b => (s : ℚ) + a + b

/-- C8 witness: the formula evaluated at a concrete seed, noise family and
pixel. -/
theorem c8_elevation_formula_witness :
    (0 : Nat) < 1 ∧
    elevAt (generateElevations simplexNewWitness (getNewElevationMap 1 1)
        (randSeed (fun _ k => k) 5)).1 0 0 =
      some (simplexNewWitness (((fun (_ : Int) (k : Nat) => k) 5 0 : Nat) : Int)
          ((0 : ℚ) / 100) ((0 : ℚ) / 100) + 0.2 +
        simplexNewWitness (((fun (_ : Int) (k : Nat) => k) 5 1 : Nat) : Int)
          ((0 : ℚ) / 20) ((0 : ℚ) / 20) * 0.15 +
        simplexNewWitness (((fun (_ : Int) (k : Nat) => k) 5 2 : Nat) : Int)
          ((0 : ℚ) / 15) ((0 : ℚ) / 15) *
          (simplexNewWitness (((fun (_ : Int) (k : Nat) => k) 5 3 : Nat) : Int)
            ((0 : ℚ) / 50) ((0 : ℚ) / 50) * 0.6)) :=
  ⟨by decide,
   c8_elevation_formula simplexNewWitness (fun _ k => k) 5 1 1 0 0 (by decide) (by decide)⟩

/-! ### C5 -/

theorem clusterCities_error_of_short (km : KMeans)
    (hkm : ∀ pts : List (ℚ × ℚ), pts.length < 2 → ∃ e, km pts = Except.error e)
    (cities : List Tile) (hlen : cities.length < 2) :
    ∃ e, clusterCities km cities = Except.error e := by
  obtain ⟨e, he⟩ := hkm (cities.map fun city => ((city.X : ℚ), (city.Y : ℚ)))
    (by simpa using hlen)
  exact ⟨"Failed to cluster cities: " ++ e, by simp [clusterCities, he]⟩

/-- C5: whenever the settlement set contains fewer than 2 settlements — or the
opaque k-means primitive otherwise fails to produce a valid 2-partition
(hypothesis `hkm` is the primitive's spec contract: it errors on fewer than 2
observations) — route regeneration (`GenerateRegionMapWithRoutes`) and full
generation (`GenerateRegionMap`, conditioned on its internally generated
settlement set) return the wrapped ClusteringError to the caller: a returned
error value `some (Except.error …)`, never a crash (`none`) and never a
silent success. -/
theorem c5_clustering_error_propagates (simplexNew : Int → ℚ → ℚ → ℚ) (km : KMeans)
    (seedStream : Int → Nat → Nat)
    (hkm : ∀ pts : List (ℚ × ℚ), pts.length < 2 → ∃ e, km pts = Except.error e) :
    (∀ (seed : Int) (m : RegionMap), m.Cities.length < 2 →
      ∃ e, GenerateRegionMapWithRoutes km seedStream seed m = some (Except.error e)) ∧
    (∀ (seed : Int) (w h n : Nat) (vt cs : List Tile) (r2 : RandSrc),
      getValidLandmarkTiles (generateElevations simplexNew (getNewElevationMap w h)
          (randSeed seedStream seed)).1 = some vt →
      generateCities
          (partitionTilesByLocation 100 100 ((w / 8 : Nat) : Int) ((h / 8 : Nat) : Int) vt) n
          (generateElevations simplexNew (getNewElevationMap w h)
            (randSeed seedStream seed)).2 = some (cs, r2) →
      cs.length < 2 →
      ∃ e, GenerateRegionMap simplexNew km seedStream seed w h n =
        some (Except.error e)) := by
  constructor
  · intro seed m hlen
    obtain ⟨e, he⟩ := clusterCities_error_of_short km hkm m.Cities hlen
    exact ⟨e, by simp [GenerateRegionMapWithRoutes, he]⟩
  · intro seed w h n vt cs r2 hvt hcs hlen
    obtain ⟨e, he⟩ := clusterCities_error_of_short km hkm cs hlen
    refine ⟨e, ?_⟩
    simp only [GenerateRegionMap]
    rw [hvt]
    simp only [hcs, he]

/-- A concrete k-means model used by the C5 witness: error on fewer than 2
observations, otherwise split first-vs-rest. -/
def kmWitness : KMeans := fun pts =>
  if pts.length < 2 then Except.error "too few observations"
  else Except.ok [pts.take 1, pts.drop 1]

/-- C5 witness: route regeneration on a single-settlement map surfaces the
ClusteringError. -/
theorem c5_clustering_error_witness :
    (([(⟨1, 3⟩ : Tile)] : List Tile).length < 2) ∧
    ∃ e, GenerateRegionMapWithRoutes kmWitness (fun _ _ => 0) 0
        ⟨0, 0, [], [⟨1, 3⟩], []⟩ = some (Except.error e) :=
  ⟨by decide,
   (c5_clustering_error_propagates (fun _ _ _ => 0) kmWitness (fun _ _ => 0)
       (fun pts hlen => ⟨"too few observations", by simp [kmWitness, hlen]⟩)).1
     0 ⟨0, 0, [], [⟨1, 3⟩], []⟩ (by decide)⟩

/-! ### C7 and C9 shared machinery -/

theorem tilePixelOrder_bounds : ∀ q ∈ tilePixelOrder, q.1 < 8 ∧ q.2 < 8 := by decide

theorem scanPixels_eq_count (e : List (List ℚ)) (i j : Nat) (l : List (Nat × Nat)) :
    (∀ p ∈ l, (elevAt e (i * 8 + p.1) (j * 8 + p.2)).isSome = true) →
    ∀ n : Nat, n ≤ 20 →
    scanPixels e i j l n = some (decide (20 < n + (l.filter (pixLand e i j)).length)) := by
  induction l with
  | nil =>
    intro _ n hn
    simp only [scanPixels, List.filter_nil, List.length_nil, Nat.add_zero]
    have h20 : ¬20 < n := by omega
    simp [h20]
  | cons p rest ih =>
    intro hb n hn
    have hp := hb p (List.mem_cons_self p rest)
    rcases Option.isSome_iff_exists.mp hp with ⟨v, hv⟩
    have hb2 : ∀ q ∈ rest, (elevAt e (i * 8 + q.1) (j * 8 + q.2)).isSome = true :=
      fun q hq => hb q (List.mem_cons_of_mem p hq)
    have hpl : pixLand e i j p = decide (0 ≤ v) := by
      unfold pixLand
      rw [hv]
    simp only [scanPixels, hv]
    by_cases h0 : (0 : ℚ) ≤ v
    · have hpl2 : pixLand e i j p = true := by
        rw [hpl]
        exact decide_eq_true h0
      have hflen : ((p :: rest).filter (pixLand e i j)).length =
          (rest.filter (pixLand e i j)).length + 1 := by
        rw [List.filter_cons, if_pos hpl2, List.length_cons]
      rw [if_pos h0, hflen]
      by_cases h20 : 20 < n + 1
      · rw [if_pos h20]
        have hgt : 20 < n + ((rest.filter (pixLand e i j)).length + 1) := by omega
        simp [hgt]
      · rw [if_neg h20, ih hb2 (n + 1) (by omega), Option.some_inj, decide_eq_decide]
        omega
    · have hpl2 : pixLand e i j p = false := by
        rw [hpl]
        exact decide_eq_false h0
      have hflen : ((p :: rest).filter (pixLand e i j)).length =
          (rest.filter (pixLand e i j)).length := by
        rw [List.filter_cons, hpl2]
        simp
      rw [if_neg h0, hflen]
      exact ih hb2 n hn

theorem scan_bounds (e : List (List ℚ)) (h : Nat) (hrect : ∀ row ∈ e, row.length = h)
    (i j : Nat) (hi : i < e.length / 8) (hj : j < h / 8) :
    ∀ p ∈ tilePixelOrder, (elevAt e (i * 8 + p.1) (j * 8 + p.2)).isSome = true := by
  intro p hp
  have hpb := tilePixelOrder_bounds p hp
  have hx : i * 8 + p.1 < e.length := by omega
  unfold elevAt
  rw [List.getElem?_eq_getElem hx, Option.some_bind]
  have hrow : e[i * 8 + p.1].length = h := hrect _ (List.getElem_mem hx)
  rw [List.getElem?_eq_getElem (by omega : j * 8 + p.2 < e[i * 8 + p.1].length)]
  rfl

theorem landmark_inner_fold (e : List (List ℚ)) (i : Nat) (fb : Nat → Bool)
    (L : List Nat) :
    (∀ j ∈ L, scanPixels e i j tilePixelOrder 0 = some (fb j)) →
    ∀ ts : List Tile,
    L.foldl
      (fun acc2 j =>
        acc2.bind fun ts =>
          (scanPixels e i j tilePixelOrder 0).map fun found =>
            if found then ts ++ [⟨(i : Int), (j : Int)⟩] else ts)
      (some ts) =
    some (ts ++ (L.filter fb).map fun (j : Nat) => (⟨(i : Int), (j : Int)⟩ : Tile)) := by
  induction L with
  | nil =>
    intro _ ts
    simp
  | cons j L ih =>
    intro hs ts
    have hj := hs j (List.mem_cons_self j L)
    have hsL : ∀ q ∈ L, scanPixels e i q tilePixelOrder 0 = some (fb q) :=
      fun q hq => hs q (List.mem_cons_of_mem j hq)
    simp only [List.foldl_cons, Option.some_bind, hj, Option.map_some']
    by_cases hbj : fb j = true
    · rw [if_pos hbj, ih hsL (ts ++ [(⟨(i : Int), (j : Int)⟩ : Tile)]),
        List.filter_cons, if_pos hbj, List.map_cons, List.append_assoc,
        List.singleton_append]
    · rw [if_neg hbj, ih hsL ts, List.filter_cons, if_neg hbj]

theorem landmark_outer_fold (e : List (List ℚ)) (fb : Nat → Nat → Bool)
    (LI LJ : List Nat) :
    (∀ i ∈ LI, ∀ j ∈ LJ, scanPixels e i j tilePixelOrder 0 = some (fb i j)) →
    ∀ ts : List Tile,
    LI.foldl
      (fun acc i =>
        LJ.foldl
          (fun acc2 j =>
            acc2.bind fun ts =>
              (scanPixels e i j tilePixelOrder 0).map fun found =>
                if found then ts ++ [⟨(i : Int), (j : Int)⟩] else ts)
          acc)
      (some ts) =
    some (ts ++ LI.flatMap fun (i : Nat) =>
      (LJ.filter (fb i)).map fun (j : Nat) => (⟨(i : Int), (j : Int)⟩ : Tile)) := by
  induction LI with
  | nil =>
    intro _ ts
    simp
  | cons i LI ih =>
    intro hs ts
    simp only [List.foldl_cons]
    rw [landmark_inner_fold e i (fb i) LJ (hs i (List.mem_cons_self i LI)) ts]
    rw [ih (fun i2 hi2 => hs i2 (List.mem_cons_of_mem i hi2)) _]
    simp [List.flatMap_cons]

theorem getValidLandmarkTiles_eq (e : List (List ℚ)) (h : Nat) (hne : e ≠ [])
    (hrect : ∀ row ∈ e, row.length = h) :
    getValidLandmarkTiles e =
      some ((List.range (e.length / 8)).flatMap fun (i : Nat) =>
        ((List.range (h / 8)).filter fun j => decide (20 < tileLandCount e i j)).map
          fun (j : Nat) => (⟨(i : Int), (j : Int)⟩ : Tile)) := by
  have h0 : 0 < e.length := List.length_pos.mpr hne
  have hrowlen : e[0].length = h := hrect _ (List.getElem_mem h0)
  unfold getValidLandmarkTiles
  rw [List.getElem?_eq_getElem h0]
  simp only [hrowlen]
  rw [landmark_outer_fold e (fun i j => decide (20 < tileLandCount e i j))
    (List.range (e.length / 8)) (List.range (h / 8)) ?_ []]
  · simp
  · intro i hi j hj
    rw [scanPixels_eq_count e i j tilePixelOrder
      (scan_bounds e h hrect i j (List.mem_range.mp hi) (List.mem_range.mp hj))
      0 (by omega)]
    rw [Option.some_inj, decide_eq_decide]
    unfold tileLandCount
    omega

theorem landmark_flatMap_congr {α β : Type} (L : List α) (f g : α → List β)
    (h : ∀ a ∈ L, f a = g a) : L.flatMap f = L.flatMap g := by
  induction L with
  | nil => rfl
  | cons a L ih =>
    simp only [List.flatMap_cons, h a (List.mem_cons_self a L),
      ih fun b hb => h b (List.mem_cons_of_mem a hb)]

/-! ### C7 -/

/-- C7: for every (nonempty, rectangular) ElevationField, the Landmark Tile
Filter's early-exit scan marks a tile eligible if and only if the count of the
tile's 64 pixels with elevation `≥ 0` strictly exceeds 20 — so the scan order
and the early exit do not change which tiles are eligible. -/
theorem c7_landmark_eligibility (e : List (List ℚ)) (h : Nat) (hne : e ≠ [])
    (hrect : ∀ row ∈ e, row.length = h) :
    ∃ ts, getValidLandmarkTiles e = some ts ∧
      ∀ t : Tile, t ∈ ts ↔ ∃ i j : Nat, i < e.length / 8 ∧ j < h / 8 ∧
        20 < tileLandCount e i j ∧ t = ⟨(i : Int), (j : Int)⟩ := by
  refine ⟨_, getValidLandmarkTiles_eq e h hne hrect, ?_⟩
  intro t
  constructor
  · intro ht
    rcases List.mem_flatMap.mp ht with ⟨i, hi, hmap⟩
    rcases List.mem_map.mp hmap with ⟨j, hjf, rfl⟩
    rcases List.mem_filter.mp hjf with ⟨hj, hcount⟩
    exact ⟨i, j, List.mem_range.mp hi, List.mem_range.mp hj, of_decide_eq_true hcount,
      rfl⟩
  · rintro ⟨i, j, hi, hj, hcount, rfl⟩
    refine List.mem_flatMap.mpr ⟨i, List.mem_range.mpr hi, List.mem_map.mpr
      ⟨j, List.mem_filter.mpr ⟨List.mem_range.mpr hj, decide_eq_true hcount⟩, rfl⟩⟩

/-- C7 witness: the eligibility characterisation on a concrete all-land 8×8
field. -/
theorem c7_landmark_eligibility_witness :
    ((List.replicate 8 (List.replicate 8 (1 : ℚ))) ≠ []) ∧
    (∀ row ∈ List.replicate 8 (List.replicate 8 (1 : ℚ)), row.length = 8) ∧
    ∃ ts, getValidLandmarkTiles (List.replicate 8 (List.replicate 8 (1 : ℚ))) = some ts ∧
      ∀ t : Tile, t ∈ ts ↔ ∃ i j : Nat,
        i < (List.replicate 8 (List.replicate 8 (1 : ℚ))).length / 8 ∧ j < 8 / 8 ∧
        20 < tileLandCount (List.replicate 8 (List.replicate 8 (1 : ℚ))) i j ∧
        t = ⟨(i : Int), (j : Int)⟩ :=
  ⟨by decide, by decide,
   c7_landmark_eligibility (List.replicate 8 (List.replicate 8 (1 : ℚ))) 8
     (by decide) (by decide)⟩

/-! ### C9 -/

/-- C9: for every (nonempty, rectangular) ElevationField — in particular one
whose pixel width or height is not divisible by 8 — the Landmark Tile Filter
returns normally (no out-of-bounds read), every returned tile lies within the
`floor(w/8) × floor(h/8)` tile grid, and the remainder pixels are ignored: any
same-sized grid agreeing on the truncated region `[0, 8⌊w/8⌋) × [0, 8⌊h/8⌋)`
produces the identical result. -/
theorem c9_landmark_floor_truncation (e e2 : List (List ℚ)) (h : Nat) (hne : e ≠ [])
    (hrect : ∀ row ∈ e, row.length = h) (hlen : e2.length = e.length)
    (hrect2 : ∀ row ∈ e2, row.length = h)
    (hagree : ∀ x y : Nat, x < 8 * (e.length / 8) → y < 8 * (h / 8) →
      elevAt e2 x y = elevAt e x y) :
    (getValidLandmarkTiles e).isSome = true ∧
    (∀ ts, getValidLandmarkTiles e = some ts →
      ∀ t ∈ ts, ∃ i j : Nat, t = ⟨(i : Int), (j : Int)⟩ ∧ i < e.length / 8 ∧
        j < h / 8) ∧
    getValidLandmarkTiles e2 = getValidLandmarkTiles e := by
  have heq := getValidLandmarkTiles_eq e h hne hrect
  have hne2 : e2 ≠ [] := by
    intro hc
    rw [hc] at hlen
    simp only [List.length_nil] at hlen
    exact hne (List.length_eq_zero.mp hlen.symm)
  have heq2 := getValidLandmarkTiles_eq e2 h hne2 hrect2
  refine ⟨by simp [heq], ?_, ?_⟩
  · intro ts hts t ht
    rw [heq, Option.some_inj] at hts
    subst hts
    rcases List.mem_flatMap.mp ht with ⟨i, hi, hmap⟩
    rcases List.mem_map.mp hmap with ⟨j, hjf, rfl⟩
    rcases List.mem_filter.mp hjf with ⟨hj, -⟩
    exact ⟨i, j, rfl, List.mem_range.mp hi, List.mem_range.mp hj⟩
  · rw [heq, heq2, hlen, Option.some_inj]
    apply landmark_flatMap_congr
    intro i hi
    have hcount : ∀ j ∈ List.range (h / 8), tileLandCount e2 i j = tileLandCount e i j := by
      intro j hj
      unfold tileLandCount
      have hfilter : tilePixelOrder.filter (pixLand e2 i j) =
          tilePixelOrder.filter (pixLand e i j) := by
        apply List.filter_congr
        intro p hp
        have hpb := tilePixelOrder_bounds p hp
        have hi8 : i < e.length / 8 := List.mem_range.mp hi
        have hj8 : j < h / 8 := List.mem_range.mp hj
        unfold pixLand
        rw [hagree (i * 8 + p.1) (j * 8 + p.2) (by omega) (by omega)]
      rw [hfilter]
    have hfilter2 :
        List.filter (fun j => decide (20 < tileLandCount e2 i j)) (List.range (h / 8)) =
          List.filter (fun j => decide (20 < tileLandCount e i j)) (List.range (h / 8)) := by
      apply List.filter_congr
      intro j hj
      rw [decide_eq_decide]
      rw [hcount j hj]
    rw [hfilter2]

/-- C9 witness: the truncation behaviour on a concrete all-land 9×10 field
(neither dimension divisible by 8). -/
theorem c9_landmark_floor_truncation_witness :
    ((List.replicate 9 (List.replicate 10 (1 : ℚ))) ≠ []) ∧
    (∀ row ∈ List.replicate 9 (List.replicate 10 (1 : ℚ)), row.length = 10) ∧
    ((getValidLandmarkTiles (List.replicate 9 (List.replicate 10 (1 : ℚ)))).isSome
        = true ∧
      (∀ ts, getValidLandmarkTiles (List.replicate 9 (List.replicate 10 (1 : ℚ)))
          = some ts →
        ∀ t ∈ ts, ∃ i j : Nat, t = ⟨(i : Int), (j : Int)⟩ ∧
          i < (List.replicate 9 (List.replicate 10 (1 : ℚ))).length / 8 ∧
          j < 10 / 8) ∧
      getValidLandmarkTiles (List.replicate 9 (List.replicate 10 (1 : ℚ))) =
        getValidLandmarkTiles (List.replicate 9 (List.replicate 10 (1 : ℚ)))) :=
  ⟨by decide, by decide,
   c9_landmark_floor_truncation (List.replicate 9 (List.replicate 10 (1 : ℚ)))
     (List.replicate 9 (List.replicate 10 (1 : ℚ))) 10 (by decide) (by decide) rfl
     (by decide) (fun _ _ _ _ => rfl)⟩

end Porygion
